import Mathlib

/-!
Verification development for the liquidjs template-engine core.

The repository ships `src/liquid.ts` (the public facade: render / renderSync,
parseFile, evalValue, …) together with the unit tests of the expression
evaluator.  The expression tokenizer/evaluator, the context, and the
sync/async suspension drivers (`util/async`) are collaborators whose source
is not part of the repository snapshot; they are modelled here from the
specification, while `_parseFile` and its option handling are translated
directly from `src/liquid.ts`.
-/

namespace Liquid

/-- Modelled from the spec: the evaluation-time value domain of the missing
expression evaluator (`render/expression.ts` is not in the snapshot).  A
closed tagged union over numbers, strings, booleans, sequences, mappings and
the distinguished Missing sentinel (spec section 3 and design note on the
dynamically typed value domain). -/
inductive Value where
  | num : Rat → Value
  | str : String → Value
  | bool : Bool → Value
  | seq : List Value → Value
  | obj : List (String × Value) → Value
  | missing : Value

/-- Modelled from the spec: the truthiness (boolean projection) policy —
only the literal `false` value and the Missing sentinel are falsy. -/
def isTruthy : Value → Bool
  | .bool false => false
  | .missing => false
  | _ => true

mutual
/-- Modelled from the spec: type-aware structural equality on values;
Missing equals only Missing, cross-type equality is false. -/
def veq : Value → Value → Bool
  | .num a, .num b => a == b
  | .str a, .str b => a == b
  | .bool a, .bool b => a == b
  | .missing, .missing => true
  | .seq a, .seq b => veqL a b
  | .obj a, .obj b => veqF a b
  | _, _ => false
/-- Elementwise equality of value sequences. -/
def veqL : List Value → List Value → Bool
  | [], [] => true
  | a :: as, b :: bs => veq a b && veqL as bs
  | _, _ => false
/-- Fieldwise equality of value mappings. -/
def veqF : List (String × Value) → List (String × Value) → Bool
  | [], [] => true
  | (k1, v1) :: as, (k2, v2) :: bs => k1 == k2 && veq v1 v2 && veqF as bs
  | _, _ => false
end

/-- Does the pattern appear at the head of the character list? -/
def leadsWith : List Char → List Char → Bool
  | [], _ => true
  | _ :: _, [] => false
  | p :: ps, c :: cs => p == c && leadsWith ps cs

/-- Does the pattern appear anywhere in the character list? -/
def findSub : List Char → List Char → Bool
  | pat, [] => leadsWith pat []
  | pat, c :: cs => leadsWith pat (c :: cs) || findSub pat cs

/-- Case-sensitive substring test on strings. -/
def strContainsSub (s sub : String) : Bool := findSub sub.data s.data

/-- Modelled from the spec: the error taxonomy of the missing evaluator and
drivers (spec section 7).  `parseErr` covers the parse-time SyntaxError
cases. -/
inductive Err where
  | parseErr : String → Err
  | contextNotDefined : Err
  | badRangeBound : Err
  | unresolvedDeferredWork : Err
deriving DecidableEq

/-- The human-readable message attached to each error. -/
def errMessage : Err → String
  | .parseErr m => m
  | .contextNotDefined => "context not defined"
  | .badRangeBound => "invalid range bounds"
  | .unresolvedDeferredWork => "unresolved deferred work"

/-- Modelled from the spec: the comparison operators (spec section 3,
Comparison). -/
inductive CompOp where
  | opEq | opNe | opLt | opLe | opGt | opGe | opIn
deriving DecidableEq

/-- Modelled from the spec: the logical operators `and` / `or`. -/
inductive LogOp where
  | land | lor
deriving DecidableEq

/-- Modelled from the spec: the token alphabet of the missing lexer
(spec section 3, Token). -/
inductive Token where
  | num : Rat → Token
  | qstr : String → Token
  | boolT : Bool → Token
  | ident : String → Token
  | comp : CompOp → Token
  | logic : LogOp → Token
  | dot : Token
  | lbrack : Token
  | rbrack : Token
  | lparen : Token
  | dotdot : Token
  | rparen : Token
deriving DecidableEq

/-- Modelled from the spec: scan the body of a quoted string; the two
character sequence backslash-quote is an escaped literal quote and does not
terminate the string; an unterminated string is a parse error. -/
def lexQuoted : List Char → String → Except Err (String × List Char)
  | [], _ => .error (.parseErr "unterminated quoted string")
  | '\\' :: '"' :: rest, acc => lexQuoted rest (acc.push '"')
  | '"' :: rest, acc => .ok (acc, rest)
  | c :: rest, acc => lexQuoted rest (acc.push c)

/-- Take the leading run of decimal digits. -/
def takeDigits : List Char → List Char × List Char
  | [] => ([], [])
  | c :: cs =>
    if c.isDigit then
      let (d, r) := takeDigits cs
      (c :: d, r)
    else ([], c :: cs)

/-- Numeric value of a digit run, most significant first. -/
def digitsVal (ds : List Char) : Nat :=
  ds.foldl (fun acc c => acc * 10 + (c.toNat - 48)) 0

/-- Is the character legal inside an identifier? -/
def isIdentChar (c : Char) : Bool := c.isAlpha || c.isDigit || c == '_'

/-- Take the leading run of identifier characters. -/
def takeIdent : List Char → List Char × List Char
  | [] => ([], [])
  | c :: cs =>
    if isIdentChar c then
      let (d, r) := takeIdent cs
      (c :: d, r)
    else ([], c :: cs)

/-- Map a completed identifier run to its token: keywords `true`, `false`,
`and`, `or`, `contains` are recognized, everything else is a path head. -/
def identToken (s : String) : Token :=
  if s == "true" then .boolT true
  else if s == "false" then .boolT false
  else if s == "and" then .logic .land
  else if s == "or" then .logic .lor
  else if s == "contains" then .comp .opIn
  else .ident s

/-- Modelled from the spec: the lexer loop of the missing tokenizer (spec
section 4.1).  Fuel bounds the number of tokens; `tokenize` supplies enough
fuel for any input since every step consumes at least one character. -/
def lexAux : Nat → List Char → Except Err (List Token)
  | 0, _ => .error (.parseErr "lexer out of fuel")
  | _ + 1, [] => .ok []
  | fuel + 1, '"' :: cs =>
    match lexQuoted cs "" with
    | .ok (s, rest) => (lexAux fuel rest).map (fun ts => Token.qstr s :: ts)
    | .error e => .error e
  | fuel + 1, '=' :: '=' :: cs => (lexAux fuel cs).map (fun ts => Token.comp .opEq :: ts)
  | fuel + 1, '!' :: '=' :: cs => (lexAux fuel cs).map (fun ts => Token.comp .opNe :: ts)
  | fuel + 1, '<' :: '=' :: cs => (lexAux fuel cs).map (fun ts => Token.comp .opLe :: ts)
  | fuel + 1, '<' :: cs => (lexAux fuel cs).map (fun ts => Token.comp .opLt :: ts)
  | fuel + 1, '>' :: '=' :: cs => (lexAux fuel cs).map (fun ts => Token.comp .opGe :: ts)
  | fuel + 1, '>' :: cs => (lexAux fuel cs).map (fun ts => Token.comp .opGt :: ts)
  | fuel + 1, '(' :: cs => (lexAux fuel cs).map (fun ts => Token.lparen :: ts)
  | fuel + 1, ')' :: cs => (lexAux fuel cs).map (fun ts => Token.rparen :: ts)
  | fuel + 1, '[' :: cs => (lexAux fuel cs).map (fun ts => Token.lbrack :: ts)
  | fuel + 1, ']' :: cs => (lexAux fuel cs).map (fun ts => Token.rbrack :: ts)
  | fuel + 1, '.' :: '.' :: cs => (lexAux fuel cs).map (fun ts => Token.dotdot :: ts)
  | fuel + 1, '.' :: cs => (lexAux fuel cs).map (fun ts => Token.dot :: ts)
  | fuel + 1, c :: cs =>
    if c.isWhitespace then lexAux fuel cs
    else if c.isDigit then
      let (ds, rest) := takeDigits (c :: cs)
      match rest with
      | '.' :: r2 =>
        match takeDigits r2 with
        | ([], _) =>
          (lexAux fuel rest).map (fun ts => Token.num (digitsVal ds) :: ts)
        | (fs, rest2) =>
          let q : Rat := (digitsVal ds : Rat) + (digitsVal fs : Rat) / ((10 : Rat) ^ fs.length)
          (lexAux fuel rest2).map (fun ts => Token.num q :: ts)
      | _ => (lexAux fuel rest).map (fun ts => Token.num (digitsVal ds) :: ts)
    else if isIdentChar c then
      let (id, rest) := takeIdent (c :: cs)
      (lexAux fuel rest).map (fun ts => identToken (String.mk id) :: ts)
    else .error (.parseErr "unexpected character")

/-- Modelled from the spec: `tokenize(text) -> ordered sequence of Token`
(spec section 4.1), over the missing tokenizer source. -/
def tokenize (s : String) : Except Err (List Token) :=
  lexAux (s.length + 1) s.data

mutual
/-- Modelled from the spec: the Operand variant — a literal, a range with
two bound sub-operands, or a property path (spec section 3). -/
inductive Operand where
  | lit : Value → Operand
  | range : Operand → Operand → Operand
  | path : String → List Segment → Operand
/-- Modelled from the spec: a path segment is a direct name or a bracketed
computed key holding a nested operand. -/
inductive Segment where
  | name : String → Segment
  | computed : Operand → Segment
end

/-- Modelled from the spec: a chain slot is a bare operand or a collapsed
two-operand comparison (spec sections 3 and 4.3). -/
inductive Slot where
  | single : Operand → Slot
  | cmp : Operand → CompOp → Operand → Slot

/-- Modelled from the spec: a LogicalChain — operands at odd positions,
`and`/`or` operators at even positions; `rest` lists the operator/slot pairs
following the head slot in source order. -/
structure Chain where
  head : Slot
  rest : List (LogOp × Slot)

mutual
/-- Modelled from the spec: greedily consume one operand (spec section 4.3
step 1); paths absorb trailing `.name` and `[expr]` segments.  Fuel bounds
bracket nesting. -/
def parseOperand : Nat → List Token → Except Err (Operand × List Token)
  | 0, _ => .error (.parseErr "parser out of fuel")
  | fuel + 1, toks =>
    match toks with
    | .num n :: rest => .ok (.lit (.num n), rest)
    | .qstr s :: rest => .ok (.lit (.str s), rest)
    | .boolT b :: rest => .ok (.lit (.bool b), rest)
    | .lparen :: rest =>
      match parseOperand fuel rest with
      | .ok (a, .dotdot :: rest2) =>
        match parseOperand fuel rest2 with
        | .ok (b, .rparen :: rest3) => .ok (.range a b, rest3)
        | .ok _ => .error (.parseErr "unclosed range")
        | .error e => .error e
      | .ok _ => .error (.parseErr "malformed range")
      | .error e => .error e
    | .ident s :: rest =>
      match parseSegs fuel rest with
      | .ok (segs, rest2) => .ok (.path s segs, rest2)
      | .error e => .error e
    | _ => .error (.parseErr "empty operand")
/-- Modelled from the spec: absorb the trailing `.name` / `[expr]` segments
of a path until a non-path token appears. -/
def parseSegs : Nat → List Token → Except Err (List Segment × List Token)
  | 0, _ => .error (.parseErr "parser out of fuel")
  | fuel + 1, toks =>
    match toks with
    | .dot :: .ident k :: rest =>
      match parseSegs fuel rest with
      | .ok (segs, r) => .ok (.name k :: segs, r)
      | .error e => .error e
    | .dot :: _ => .error (.parseErr "dangling dot")
    | .lbrack :: rest =>
      match parseOperand fuel rest with
      | .ok (o, .rbrack :: rest2) =>
        match parseSegs fuel rest2 with
        | .ok (segs, r) => .ok (.computed o :: segs, r)
        | .error e => .error e
      | .ok _ => .error (.parseErr "unbalanced bracket")
      | .error e => .error e
    | _ => .ok ([], toks)
end

/-- Modelled from the spec: consume one chain slot — an operand optionally
collapsed with a comparison operator and a second operand; comparisons never
chain (spec section 4.3 step 2). -/
def parseSlot (fuel : Nat) (toks : List Token) : Except Err (Slot × List Token) :=
  match parseOperand fuel toks with
  | .error e => .error e
  | .ok (l, .comp op :: rest) =>
    match parseOperand fuel rest with
    | .error e => .error e
    | .ok (_, .comp _ :: _) => .error (.parseErr "chained comparison")
    | .ok (r, rest2) => .ok (.cmp l op r, rest2)
  | .ok (o, rest) => .ok (.single o, rest)

/-- Modelled from the spec: parse the flat logical chain — slots separated
by `and`/`or` (spec section 4.3 steps 3 and 4). -/
def parseChainAux : Nat → List Token → Except Err (Chain × List Token)
  | 0, _ => .error (.parseErr "parser out of fuel")
  | fuel + 1, toks =>
    match parseSlot (fuel + 1) toks with
    | .error e => .error e
    | .ok (s, .logic op :: rest) =>
      match parseChainAux fuel rest with
      | .ok (ch, rest2) => .ok (⟨s, (op, ch.head) :: ch.rest⟩, rest2)
      | .error e => .error e
    | .ok (s, rest) => .ok (⟨s, []⟩, rest)

/-- Modelled from the spec: `parse(tokens) -> LogicalChain`, failing on
malformed structure or leftover tokens (spec section 4.3). -/
def parse (toks : List Token) : Except Err Chain :=
  match parseChainAux (toks.length + 1) toks with
  | .ok (ch, []) => .ok ch
  | .ok _ => .error (.parseErr "unexpected trailing tokens")
  | .error e => .error e

/-- Modelled from the spec: the Context root mapping — string keys to
values, read-only during evaluation (spec section 3). -/
abbrev Ctx := List (String × Value)

/-- Key lookup in a string-keyed field list; absent keys yield the Missing
sentinel. -/
def lookupStr : List (String × Value) → String → Value
  | [], _ => .missing
  | (k, v) :: rest, key => if k == key then v else lookupStr rest key

/-- Modelled from the spec: one lookup step of the Property Resolver — a
lookup on a non-container current value, or a missing key, yields the
Missing sentinel and never fails (spec section 4.2). -/
def getMember (cur : Value) (key : Value) : Value :=
  match cur, key with
  | .obj fields, .str k => lookupStr fields k
  | .seq xs, .num q =>
    if q.den = 1 ∧ 0 ≤ q.num then xs.getD q.num.toNat .missing else .missing
  | _, _ => .missing

/-- Modelled from the spec: coerce a range bound to an integer (spec
section 4.4, range materialization). -/
def toInt : Value → Option Int
  | .num q => some q.floor
  | _ => none

/-- The inclusive ascending integer sequence from `a` to `b`; empty when
`b < a`. -/
def rangeList (a b : Int) : List Int :=
  (List.range (b + 1 - a).toNat).map (fun (i : Nat) => a + (i : Int))

mutual
/-- Modelled from the spec: evaluate one operand against the context — a
literal passes through, a range evaluates and coerces both bounds and
materializes the inclusive ascending sequence, a path resolves its head in
the context root and walks its segments (spec sections 4.2 and 4.4). -/
def evalOperand (ctx : Ctx) : Operand → Except Err Value
  | .lit v => .ok v
  | .range a b =>
    match evalOperand ctx a with
    | .error e => .error e
    | .ok va =>
      match evalOperand ctx b with
      | .error e => .error e
      | .ok vb =>
        match toInt va, toInt vb with
        | some i, some j => .ok (.seq ((rangeList i j).map (fun n => .num n)))
        | _, _ => .error .badRangeBound
  | .path head segs => resolveSegs ctx (lookupStr ctx head) segs
/-- Modelled from the spec: the Property Resolver walk — segments left to
right, a `name` segment is a direct key lookup, a `computed` segment first
evaluates its nested operand to obtain the key (spec section 4.2). -/
def resolveSegs (ctx : Ctx) (cur : Value) : List Segment → Except Err Value
  | [] => .ok cur
  | .name k :: rest => resolveSegs ctx (getMember cur (.str k)) rest
  | .computed o :: rest =>
    match evalOperand ctx o with
    | .error e => .error e
    | .ok key => resolveSegs ctx (getMember cur key) rest
end

/-- Lexicographic strict order on character lists. -/
def charListLt : List Char → List Char → Bool
  | [], [] => false
  | [], _ :: _ => true
  | _ :: _, [] => false
  | a :: as, b :: bs => if a < b then true else if a == b then charListLt as bs else false

/-- Modelled from the spec: the strict-less comparison — numeric operands
compare numerically, string operands lexicographically, anything else is
not less (spec section 4.4, comparison evaluation). -/
def valueLt : Value → Value → Bool
  | .num a, .num b => decide (a < b)
  | .str a, .str b => charListLt a.data b.data
  | _, _ => false

/-- Modelled from the spec: the less-or-equal comparison, numeric or
lexicographic. -/
def valueLe : Value → Value → Bool
  | .num a, .num b => decide (a ≤ b)
  | .str a, .str b => charListLt a.data b.data || a == b
  | _, _ => false

/-- Is the value a string or a materialized sequence (the only left-operand
types `contains` accepts)? -/
def isStrOrSeq : Value → Bool
  | .str _ => true
  | .seq _ => true
  | _ => false

/-- Modelled from the spec: the `contains` operator — a case-sensitive
substring test for a string left operand, a membership test for a sequence
left operand; any other left-operand type, or a Missing operand on either
side, yields `false` rather than failing (spec section 4.4). -/
def containsVal : Value → Value → Bool
  | .missing, _ => false
  | _, .missing => false
  | .str s, .str sub => strContainsSub s sub
  | .str _, _ => false
  | .seq xs, r => xs.any (fun x => veq x r)
  | _, _ => false

/-- Modelled from the spec: evaluate one comparison operator on two realized
operand values (spec section 4.4). -/
def evalCompOp : CompOp → Value → Value → Bool
  | .opEq, a, b => veq a b
  | .opNe, a, b => !(veq a b)
  | .opLt, a, b => valueLt a b
  | .opLe, a, b => valueLe a b
  | .opGt, a, b => valueLt b a
  | .opGe, a, b => valueLe b a
  | .opIn, a, b => containsVal a b

/-- Modelled from the spec: the value of one chain slot — a bare operand
evaluates to its value, a comparison evaluates both operands (left first)
and applies the operator (spec section 4.4). -/
def evalSlot (ctx : Ctx) : Slot → Except Err Value
  | .single o => evalOperand ctx o
  | .cmp l op r =>
    match evalOperand ctx l with
    | .error e => .error e
    | .ok a =>
      match evalOperand ctx r with
      | .error e => .error e
      | .ok b => .ok (.bool (evalCompOp op a b))

/-- Modelled from the spec: the right-to-left logical fold (spec section
4.4) — the rightmost slot's value seeds the accumulator, then each
`(slot, op)` pair is folded walking leftward; every slot is evaluated
unconditionally.  Besides the accumulator the function returns the slots in
the order they were evaluated (rightmost first), recording the evaluation
sequence the spec requires. -/
def evalChainAux (ctx : Ctx) : Slot → List (LogOp × Slot) → Except Err (Value × List Slot)
  | head, [] =>
    match evalSlot ctx head with
    | .error e => .error e
    | .ok v => .ok (v, [head])
  | head, (op, s2) :: rest =>
    match evalChainAux ctx s2 rest with
    | .error e => .error e
    | .ok (acc, tr) =>
      match evalSlot ctx head with
      | .error e => .error e
      | .ok l =>
        let acc2 := match op with
          | .land => if isTruthy l then acc else l
          | .lor => if isTruthy l then l else acc
        .ok (acc2, tr ++ [head])

/-- The slots of a chain in source (left-to-right) order. -/
def chainSlots (ch : Chain) : List Slot :=
  ch.head :: ch.rest.map Prod.snd

/-- Modelled from the spec: `evaluate(chain, ctx)` — fold the chain right to
left; a chain of exactly one slot returns that slot's raw value unmodified,
a longer chain casts the final accumulator to a canonical boolean using the
truthiness policy (spec section 4.4). -/
def evalChain (ctx : Ctx) (ch : Chain) : Except Err Value :=
  match evalChainAux ctx ch.head ch.rest with
  | .error e => .error e
  | .ok (v, _) =>
    match ch.rest with
    | [] => .ok v
    | _ :: _ => .ok (.bool (isTruthy v))

/-- Modelled from the spec: the full expression pipeline of the missing
`Expression.value` — an absent context fails with `ContextNotDefined` before
any token of the text is examined; otherwise tokenize, parse, and fold
(spec sections 4.1-4.4 and 6). -/
def evaluate (expr : String) (ctx : Option Ctx) : Except Err Value :=
  match ctx with
  | none => .error .contextNotDefined
  | some c =>
    match tokenize expr with
    | .error e => .error e
    | .ok toks =>
      match parse toks with
      | .error e => .error e
      | .ok ch => evalChain c ch

/-- Modelled from the spec: a published pending operand of a
suspension-capable computation (`util/async` is not in the snapshot).  A
`ready` operand is already realized at the moment of the pause; a
`deferredWork` operand requires waiting and realizes to the carried value
(spec sections 3 and 4.5). -/
inductive Pending where
  | ready : Value → Pending
  | deferredWork : Value → Pending

/-- The realized value available immediately at the pause, if any. -/
def Pending.realizeNow : Pending → Option Value
  | .ready v => some v
  | .deferredWork _ => none

/-- The realized value obtained by waiting for the pending operand. -/
def Pending.realizeWait : Pending → Value
  | .ready v => v
  | .deferredWork v => v

/-- Modelled from the spec: a suspension-capable computation — done with a
value, failed, or paused publishing a pending operand with a resume
continuation (spec section 3 and design note on dual execution). -/
inductive Comp where
  | done : Value → Comp
  | failed : Err → Comp
  | paused : Pending → (Value → Comp) → Comp

/-- Modelled from the spec: `driveBlocking` — run until a pause, realize the
published pending operand immediately, resume; fail with
`UnresolvedDeferredWork` when the operand is not already realized at the
moment of the pause (spec section 4.5).  Fuel bounds the number of pauses
stepped. -/
def driveBlocking : Nat → Comp → Except Err Value
  | _, .done v => .ok v
  | _, .failed e => .error e
  | 0, .paused _ _ => .error .unresolvedDeferredWork
  | fuel + 1, .paused p k =>
    match p.realizeNow with
    | some v => driveBlocking fuel (k v)
    | none => .error .unresolvedDeferredWork

/-- Modelled from the spec: `driveDeferred` — the identical step sequence,
but each pending operand is realized by waiting, so a pause never raises
`UnresolvedDeferredWork` (spec section 4.5).  Fuel bounds the number of
pauses stepped, with `unresolvedDeferredWork` standing in for a computation
that outruns its fuel. -/
def driveDeferred : Nat → Comp → Except Err Value
  | _, .done v => .ok v
  | _, .failed e => .error e
  | 0, .paused _ _ => .error .unresolvedDeferredWork
  | fuel + 1, .paused p k => driveDeferred fuel (k (p.realizeWait))

/-- A parsed template, abstractly (the parser output type of the facade). -/
abbrev Tpl := List String

/-- The template cache: filepaths to parsed templates, as consulted by
`_parseFile` via `cache.read` / `cache.write`. -/
abbrev CacheT := List (String × Tpl)

/-- `cache.read(filepath)`: the cached templates, if present. -/
def cacheRead : CacheT → String → Option Tpl
  | [], _ => none
  | (k, t) :: rest, key => if k == key then some t else cacheRead rest key

/-- `cache.write(filepath, tpl)`. -/
def cacheWrite (c : CacheT) (k : String) (t : Tpl) : CacheT := (k, t) :: c

/-- The constructor-level options of the engine (`this.options` after
`applyDefault(normalize(opts))`): the fields `_parseFile` consults. -/
structure EngineOpts where
  root : List String
  extname : String
  cache : Option CacheT

/-- A per-call options argument (`opts?: LiquidOptions`): every field may be
absent, and `{ ...this.options, ...normalize(opts) }` overrides only the
present ones. -/
structure CallOpts where
  root : Option (List String)
  extname : Option String
  cache : Option (Option CacheT)

/-- The merged options `{ ...this.options, ...normalize(opts) }` computed at
the top of `_parseFile`. -/
def mergeOpts (base : EngineOpts) (o : CallOpts) : EngineOpts :=
  { root := o.root.getD base.root
    extname := o.extname.getD base.extname
    cache := o.cache.getD base.cache }

/-- The filesystem collaborator of the facade (`this.fs`): `resolve`,
optional `fallback`, and the sync/async `exists` / `readFile` pairs. -/
structure FSModel where
  resolveFile : String → String → String → String
  fallback : Option (String → Option String)
  existsSyncF : String → Bool
  existsAsyncF : String → Bool
  readFileSyncF : String → String
  readFileAsyncF : String → String

/-- The engine state `_parseFile` closes over: constructor-level options,
the filesystem, and the parser (abstracted as a function from file content
to templates). -/
structure Engine where
  options : EngineOpts
  fs : FSModel
  parseF : String → Tpl

/-- The body of the `for (const filepath of paths)` loop of `_parseFile`
(src/liquid.ts lines 77-88): per iteration destructure `this.options.cache`,
consult it, fall through to the existence check, parse and write on success,
continue on a missing file; throw the ENOENT lookup error after the last
path.  On success the updated cache object is returned alongside the
templates. -/
def parseFileLoop (e : Engine) (sync : Bool) (file : String) (roots : List String) :
    List String → Except String (Tpl × Option CacheT)
  | [] =>
    .error ("ENOENT: Failed to lookup \"" ++ file ++ "\" in \"" ++
      String.intercalate "," roots ++ "\"")
  | fp :: restPaths =>
    let cache := e.options.cache
    match cache.bind (fun c => cacheRead c fp) with
    | some tpls => .ok (tpls, cache)
    | none =>
      if (if sync then e.fs.existsSyncF fp else e.fs.existsAsyncF fp) then
        let tpl := e.parseF (if sync then e.fs.readFileSyncF fp else e.fs.readFileAsyncF fp)
        match cache with
        | some c => .ok (tpl, some (cacheWrite c fp tpl))
        | none => .ok (tpl, none)
      else parseFileLoop e sync file roots restPaths

/-- Translation of `Liquid._parseFile` (src/liquid.ts lines 69-89): merge
the per-call options over the constructor options, build the candidate
paths from the merged `root` and `extname` plus the filesystem fallback,
then run the lookup loop.  The loop reads `this.options.cache`, not the
merged options. -/
def parseFileModel (e : Engine) (file : String) (opts : CallOpts) (sync : Bool) :
    Except String (Tpl × Option CacheT) :=
  let options := mergeOpts e.options opts
  let paths := options.root.map (fun r => e.fs.resolveFile r file options.extname)
  let paths2 :=
    match e.fs.fallback with
    | some fb =>
      match fb file with
      | some fp => paths ++ [fp]
      | none => paths
    | none => paths
  parseFileLoop e sync file options.root paths2

/-- A concrete two-slot chain (`false and true`) used to exhibit the
unconditional evaluation of discarded operands. -/
def chainEx : Chain :=
  ⟨.single (.lit (.bool false)), [(.land, .single (.lit (.bool true)))]⟩

/-- A concrete computation with one already-realized pause. -/
def compEx : Comp := .paused (.ready (.num 1)) (fun v => .done v)

/-- A concrete engine whose constructor-level options carry no cache. -/
def engineEx : Engine :=
  { options := { root := ["root/"], extname := ".liquid", cache := none }
    fs :=
      { resolveFile := fun r f _ => r ++ f
        fallback := none
        existsSyncF := fun _ => true
        existsAsyncF := fun _ => true
        readFileSyncF := fun _ => "content"
        readFileAsyncF := fun _ => "content" }
    parseF := fun s => [s] }

/-- A concrete per-call options argument that supplies a cache. -/
def callOptsEx : CallOpts := { root := none, extname := none, cache := some (some []) }

/-- Claim C1: the logical-chain fold is right-to-left with value precedence (not
standard and-before-or precedence): on the context-independent inputs,
`true and false and false or true` evaluates to `false` and
`true or false and false` evaluates to `true`. -/
theorem logical_fold_right_to_left :
    evaluate "true and false and false or true" (some []) = .ok (.bool false) ∧
    evaluate "true or false and false" (some []) = .ok (.bool true) :=
  ⟨rfl, rfl⟩

/-- Claim C2: driver equivalence — whenever the blocking driver completes with a
value (so every pause it reached was already realized, i.e. the evaluation
never suspends), the deferred driver run on the same computation with the
same fuel yields the identical value. -/
theorem driver_equivalence (fuel : Nat) (c : Comp) (v : Value)
    (h : driveBlocking fuel c = .ok v) : driveDeferred fuel c = .ok v := by
  induction fuel generalizing c with
  | zero =>
    cases c with
    | done w => simpa [driveBlocking, driveDeferred] using h
    | failed e => simp [driveBlocking] at h
    | paused p k => simp [driveBlocking] at h
  | succ n ih =>
    cases c with
    | done w => simpa [driveBlocking, driveDeferred] using h
    | failed e => simp [driveBlocking] at h
    | paused p k =>
      cases p with
      | ready w =>
        simp [driveBlocking, Pending.realizeNow] at h
        simpa [driveDeferred, Pending.realizeWait] using ih (k w) h
      | deferredWork w => simp [driveBlocking, Pending.realizeNow] at h

/-- Witness for C2: a computation pausing once on an already-realized
operand, driven by both drivers to the same value. -/
theorem driver_equivalence_witness :
    driveBlocking 1 compEx = .ok (.num 1) ∧ driveDeferred 1 compEx = .ok (.num 1) :=
  ⟨rfl, driver_equivalence 1 compEx (.num 1) rfl⟩

/-- Claim C3: truthiness policy — a value tested as a condition is falsy exactly
when it is the literal `false` or the Missing sentinel (zero, the empty
string and an empty sequence are all truthy), and with `empty` bound to the
empty string, `empty and empty != ""` evaluates to `false`. -/
theorem truthiness_policy :
    (∀ v : Value, isTruthy v = false ↔ (v = .bool false ∨ v = .missing)) ∧
    evaluate "empty and empty != \"\"" (some [("empty", .str "")]) = .ok (.bool false) := by
  refine ⟨fun v => ?_, rfl⟩
  cases v with
  | bool b => cases b <;> simp [isTruthy]
  | _ => simp [isTruthy]

/-- Claim C4: a well-formed chain of exactly one slot returns that slot's value
unmodified with no boolean cast (a lone literal such as `2.4`, `"foo"` or
`false` evaluates to itself), while a chain with at least one logical
operator casts the final accumulator to a canonical boolean via the
truthiness policy. -/
theorem single_slot_passthrough :
    (∀ (ctx : Ctx) (s : Slot), evalChain ctx ⟨s, []⟩ = evalSlot ctx s) ∧
    (∀ (ctx : Ctx) (s : Slot) (p : LogOp × Slot) (rest : List (LogOp × Slot)),
      evalChain ctx ⟨s, p :: rest⟩ =
        (evalChainAux ctx s (p :: rest)).map (fun q => Value.bool (isTruthy q.1))) ∧
    evaluate "2.4" (some []) = .ok (.num (2.4 : Rat)) ∧
    evaluate "\"foo\"" (some []) = .ok (.str "foo") ∧
    evaluate "false" (some []) = .ok (.bool false) := by
  refine ⟨fun ctx s => ?_, fun ctx s p rest => ?_, ?_, rfl, rfl⟩
  · cases hs : evalSlot ctx s <;> simp [evalChain, evalChainAux, hs]
  · cases ha : evalChainAux ctx s (p :: rest) <;> simp [evalChain, ha, Except.map]
  · with_unfolding_all rfl

/-- Claim C5: `contains` is a case-sensitive substring test on a string left
operand and a membership test on a sequence left operand; any other
left-operand type, or a Missing operand on either side (e.g. an undefined
variable), makes it evaluate to `false` without error. -/
theorem contains_policy :
    (∀ l r : Value, isStrOrSeq l = false → containsVal l r = false) ∧
    (∀ l r : Value, l = .missing ∨ r = .missing → containsVal l r = false) ∧
    evaluate "x contains \"x\"" (some [("x", .str "XXX")]) = .ok (.bool false) ∧
    evaluate "x contains \"X\"" (some [("x", .str "XXX")]) = .ok (.bool true) ∧
    evaluate "1 contains \"x\"" (some [("x", .str "XXX")]) = .ok (.bool false) ∧
    evaluate "y contains \"x\"" (some [("x", .str "XXX")]) = .ok (.bool false) := by
  refine ⟨fun l r hl => ?_, fun l r h => ?_, rfl, rfl, rfl, rfl⟩
  · cases l <;> cases r <;> simp_all [containsVal, isStrOrSeq]
  · rcases h with h | h
    · subst h; simp [containsVal]
    · subst h; cases l <;> simp [containsVal]

/-- Witness for C5: the hypotheses of the two general clauses discharged at
concrete values — a numeric left operand and a Missing left operand both
make `contains` return `false`. -/
theorem contains_policy_witness :
    isStrOrSeq (Value.num 1) = false ∧
    containsVal (Value.num 1) (Value.str "x") = false ∧
    containsVal Value.missing (Value.str "x") = false :=
  ⟨rfl, contains_policy.1 (Value.num 1) (Value.str "x") rfl,
    contains_policy.2.1 Value.missing (Value.str "x") (Or.inl rfl)⟩

/-- Claim C6: a range operand `(A..B)` evaluates both bounds (literal or path),
coerces them to integers and materializes the inclusive ascending sequence:
membership in `rangeList a b` is exactly `a ≤ n ∧ n ≤ b`, `(2..4)` yields
`[2,3,4]`, and `(two..4)` with `two = 2` in the context also yields
`[2,3,4]`. -/
theorem range_materialization :
    (∀ a b n : Int, n ∈ rangeList a b ↔ a ≤ n ∧ n ≤ b) ∧
    evaluate "(2..4)" (some []) = .ok (.seq [.num 2, .num 3, .num 4]) ∧
    evaluate "(two..4)" (some [("two", .num 2)]) = .ok (.seq [.num 2, .num 3, .num 4]) := by
  refine ⟨fun a b n => ?_, rfl, rfl⟩
  constructor
  · intro hm
    obtain ⟨i, hi, rfl⟩ := List.mem_map.mp hm
    have := List.mem_range.mp hi
    omega
  · intro hab
    refine List.mem_map.mpr ⟨(n - a).toNat, List.mem_range.mpr ?_, ?_⟩ <;> omega

/-- Claim C7: evaluating any expression string against an absent context fails
immediately with the `ContextNotDefined` error, before any token of the
text is examined, and the error's message contains the phrase
"context not defined". -/
theorem context_not_defined :
    (∀ s : String, evaluate s none = .error .contextNotDefined) ∧
    strContainsSub (errMessage .contextNotDefined) "context not defined" = true :=
  ⟨fun _ => rfl, rfl⟩

/-- Claim C8: during the logical fold every slot's value is evaluated
unconditionally — whenever the fold completes, the recorded sequence of
slot evaluations is the full slot list of the chain, rightmost first,
independent of the truthiness of any slot. -/
theorem unconditional_slot_evaluation (ctx : Ctx) (head : Slot)
    (rest : List (LogOp × Slot)) (out : Value × List Slot)
    (h : evalChainAux ctx head rest = .ok out) :
    out.2 = (chainSlots ⟨head, rest⟩).reverse := by
  induction rest generalizing head out with
  | nil =>
    cases hs : evalSlot ctx head with
    | error e => simp [evalChainAux, hs] at h
    | ok v =>
      simp only [evalChainAux, hs, Except.ok.injEq] at h
      subst h
      simp [chainSlots]
  | cons p rs ih =>
    obtain ⟨op, s2⟩ := p
    cases ha : evalChainAux ctx s2 rs with
    | error e => simp [evalChainAux, ha] at h
    | ok pr =>
      cases hs : evalSlot ctx head with
      | error e => simp [evalChainAux, ha, hs] at h
      | ok l =>
        simp only [evalChainAux, ha, hs, Except.ok.injEq] at h
        subst h
        have htr := ih s2 pr ha
        simp only [chainSlots, List.map_cons] at htr ⊢
        simp [htr, List.reverse_cons]

/-- Witness for C8: on the concrete chain `false and true` the fold
completes and the recorded evaluation sequence contains both slots —
rightmost first — even though the falsy left operand discards the right
operand's contribution. -/
theorem unconditional_slot_evaluation_witness :
    evalChainAux [] chainEx.head chainEx.rest =
      .ok (Value.bool false,
        [Slot.single (.lit (.bool true)), Slot.single (.lit (.bool false))]) ∧
    (Value.bool false,
      [Slot.single (Operand.lit (Value.bool true)),
        Slot.single (Operand.lit (Value.bool false))]).2 =
      (chainSlots chainEx).reverse :=
  ⟨rfl, unconditional_slot_evaluation [] chainEx.head chainEx.rest _ rfl⟩

/-- Claim C9: lexer escaping — inside a quoted string the two-character sequence
backslash-quote is an escaped literal quote that does not terminate the
string, and a `]` inside a quoted string does not close an enclosing
bracket access: the literal `"\""` lexes to the unescaped quote character,
`"\"" == quote` is true when `quote` is the quote character, and
`obj["]"] == "bracket"` is true when `obj` maps the key `]` to
`"bracket"`. -/
theorem lexer_escaping :
    tokenize "\"\\\"\"" = .ok [Token.qstr "\""] ∧
    evaluate "\"\\\"\" == quote" (some [("quote", .str "\"")]) = .ok (.bool true) ∧
    evaluate "obj[\"]\"] == \"bracket\"" (some [("obj", .obj [("]", .str "bracket")])]) =
      .ok (.bool true) :=
  ⟨rfl, rfl, rfl⟩

/-- Helper for C10: when the constructor-level options carry no cache, the
`_parseFile` loop neither reads nor writes any cache, whatever the per-call
options supplied. -/
theorem parseFileLoop_cache_none (e : Engine) (sync : Bool) (file : String)
    (roots : List String) (paths : List String) (r : Tpl × Option CacheT)
    (hc : e.options.cache = none)
    (h : parseFileLoop e sync file roots paths = .ok r) : r.2 = none := by
  induction paths with
  | nil => simp [parseFileLoop] at h
  | cons fp rest ih =>
    simp only [parseFileLoop, hc, Option.none_bind] at h
    by_cases hcond : (if sync then e.fs.existsSyncF fp else e.fs.existsAsyncF fp) = true
    · rw [if_pos hcond] at h
      cases h; rfl
    · rw [if_neg hcond] at h
      exact ih h

/-- Claim C10: the template cache consulted and written by `_parseFile` is the
one from the engine's constructor-level options (`this.options.cache`), not
from the per-call options merged at the top of `_parseFile`: replacing the
per-call `cache` field never changes the result, and an engine constructed
without a cache performs no cache write even when the per-call options
supply one. -/
theorem parseFile_cache_from_constructor :
    (∀ (e : Engine) (file : String) (opts : CallOpts) (sync : Bool)
        (c : Option (Option CacheT)),
      parseFileModel e file { opts with cache := c } sync =
        parseFileModel e file opts sync) ∧
    (∀ (e : Engine) (file : String) (opts : CallOpts) (sync : Bool)
        (r : Tpl × Option CacheT),
      e.options.cache = none → parseFileModel e file opts sync = .ok r → r.2 = none) :=
  ⟨fun _ _ _ _ _ => rfl,
    fun e file _ sync r hc h =>
      parseFileLoop_cache_none e sync file _ _ r hc h⟩

/-- Witness for C10: a concrete engine with no constructor-level cache,
called with per-call options that do supply a cache — the parse succeeds
and no cache is written. -/
theorem parseFile_cache_from_constructor_witness :
    engineEx.options.cache = none ∧
    parseFileModel engineEx "a" callOptsEx true = .ok (["content"], none) ∧
    ((["content"], (none : Option CacheT)) : Tpl × Option CacheT).2 = none :=
  ⟨rfl, rfl,
    parseFile_cache_from_constructor.2 engineEx "a" callOptsEx true _ rfl rfl⟩

end Liquid
